import Mathlib

/-!
# Verification of the notetaking backend's RAG pipeline

Shallow embedding of the retrieval-augmented conversational pipeline of the
notetaking backend (text chunker, embedding gateway, vector search, intent
parsing, context builder, conversation orchestrator, chunk persistence),
together with theorems settling the specified properties.

Conventions:
* Python strings are modelled by Lean `String` (`len` = number of code
  points, matching Python `len`); Python slices by `pySlice` with full
  negative-index clamping semantics.
* Embedding vectors are `List ℚ`. The external embedding / generative
  providers are oracles (`Provider`, `TurnOracle` fields): one oracle
  consultation models one `client.models.*` call after the retry loop, with
  `none` modelling the call raising (all call sites catch and degrade).
* Database rows are Lean structures mirroring the SQLAlchemy models; a DB
  transaction is modelled by pure state passing where an aborted turn
  returns the unchanged state (rollback) and a committed turn returns the
  updated state.
-/

namespace Notetaking

/-! ## Python string primitives -/

/-- ASCII whitespace recognized by Python `str.strip()`. -/
def isPyWs (c : Char) : Bool :=
  c = ' ' || c = '\t' || c = '\n' || c = '\r' || c = '\x0b' || c = '\x0c'

/-- Python `str.strip()` on a character list. -/
def pyStripList (cs : List Char) : List Char :=
  ((cs.dropWhile isPyWs).reverse.dropWhile isPyWs).reverse

/-- Python `str.strip()`. -/
def pyStrip (s : String) : String := ⟨pyStripList s.data⟩

/-- Resolve one Python slice bound against length `n`:
negative indices count from the end; results are clamped to `[0, n]`. -/
def pyBound (n : Nat) (i : Int) : Nat :=
  if i < 0 then (Int.ofNat n + i).toNat else min n i.toNat

/-- Python slice `s[a:b]` (step 1) on a character list. -/
def pySlice (cs : List Char) (a b : Int) : List Char :=
  (cs.take (pyBound cs.length b)).drop (pyBound cs.length a)

/-! ## TextChunker: `chunk_text` (embedding_service.py lines 442-544) -/

/-- `_RECOMMENDED_MAX_CHUNK_SIZE` in embedding_service.py. -/
def RECOMMENDED_MAX_CHUNK_SIZE : Nat := 3000

/-- One chunk dictionary produced by `chunk_text`. -/
structure ChunkDraft where
  chunk_text : String
  chunk_index : Nat
  chunk_type : String
  start_char : Int
  end_char : Int
  token_count : Nat
  deriving Repr, DecidableEq

/-- The `sentence_endings` list of `chunk_text`, in source order. -/
def sentenceEndings : List (List Char) :=
  [". ".data, "! ".data, "? ".data, "\n\n".data, "\n".data]

/-- `text[i:i+len(ending)] == ending` for the first matching ending in list
order (the inner `for ending in sentence_endings: ... break`); returns the
length of the matched ending. -/
def matchEnding (t : List Char) (i : Int) : Option Nat :=
  sentenceEndings.findSome? fun e =>
    if pySlice t i (i + (e.length : Int)) = e then some e.length else none

/-- The boundary scan of `chunk_text`:
`for i in range(min(end + 50, len(text)) - 1, end - 50, -1)` keeping
`best_break = i + len(ending)` and breaking out as soon as
`best_break != end`.  At loop entry `best_break` always equals `end`, so the
scan returns the first (largest) `i + len(ending)` different from `endPos`,
and `endPos` if the countdown finishes. `steps` is the remaining number of
loop iterations, `i` the current index. -/
def scanBreakAux (t : List Char) (endPos : Int) : Int → Nat → Int
  | _, 0 => endPos
  | i, steps + 1 =>
    match matchEnding t i with
    | some l => if i + (l : Int) = endPos then scanBreakAux t endPos (i - 1) steps else i + l
    | none => scanBreakAux t endPos (i - 1) steps

/-- The full boundary scan for a tentative end position. -/
def scanBreak (t : List Char) (endPos : Int) : Int :=
  let n : Int := t.length
  let hi := min (endPos + 50) n - 1
  let lo := endPos - 50
  scanBreakAux t endPos hi (hi - lo).toNat

/-- The `while start < len(text)` loop of `chunk_text`, with explicit fuel
(the Python loop has no termination guarantee for adversarial parameter
combinations; every emitted-chunk invariant below is proved for every fuel).
`t` is the stripped text. -/
def chunkLoop (t : List Char) (size overlap : Nat) (ctype : String) :
    Int → Nat → Nat → List ChunkDraft
  | _, _, 0 => []
  | start, idx, fuel + 1 =>
    if start < (t.length : Int) then
      let endPos :=
        if start + (size : Int) < (t.length : Int) then scanBreak t (start + (size : Int))
        else (t.length : Int)
      let ctext := pyStripList (pySlice t start endPos)
      let tail :=
        if endPos - (overlap : Int) ≥ (t.length : Int) ∨ endPos = (t.length : Int) then []
        else chunkLoop t size overlap ctype (endPos - (overlap : Int))
          (if ctext = [] then idx else idx + 1) fuel
      if ctext = [] then tail
      else ⟨⟨ctext⟩, idx, ctype, start, endPos, ctext.length / 4⟩ :: tail
    else []

/-- `chunk_text(text, chunk_size, chunk_overlap, chunk_type)`.
Parameters are naturals (all call sites pass positive literals). -/
def chunkText (text : String) (chunkSize : Nat := 1500) (chunkOverlap : Nat := 200)
    (chunkType : String := "content") : List ChunkDraft :=
  if pyStrip text = "" then []
  else
    let size := if chunkSize > RECOMMENDED_MAX_CHUNK_SIZE then RECOMMENDED_MAX_CHUNK_SIZE else chunkSize
    let overlap := if chunkOverlap ≥ size then size / 5 else chunkOverlap
    let t := pyStripList text.data
    chunkLoop t size overlap chunkType 0 0 (t.length + 1)

/-- Every chunk emitted by any run of the chunking loop carries
`token_count = ⌊len(chunk_text)/4⌋` (stated for every fuel value, hence for
every finite prefix of the Python `while` loop's iterations). -/
theorem chunkLoop_token_count (t : List Char) (size overlap : Nat) (ctype : String) :
    ∀ fuel start idx c, c ∈ chunkLoop t size overlap ctype start idx fuel →
      c.token_count = c.chunk_text.length / 4 := by
  intro fuel
  induction fuel with
  | zero => intro start idx c h; simp [chunkLoop] at h
  | succ n ih =>
    intro start idx c h
    simp only [chunkLoop] at h
    by_cases h1 : start < (t.length : Int)
    · rw [if_pos h1] at h
      by_cases h2 : start + (size : Int) < (t.length : Int) <;>
        [rw [if_pos h2] at h; rw [if_neg h2] at h] <;>
      · split at h
        · split at h
          · simp at h
          · exact ih _ _ _ h
        · rcases List.mem_cons.mp h with rfl | h
          · rfl
          · split at h
            · simp at h
            · exact ih _ _ _ h
    · rw [if_neg h1] at h; simp at h

/-- C9 (counterexample): the claim says `token_count = ⌈len(chunk_text)/4⌉`,
but `chunk_text("hello")` emits one chunk of length 5 with
`token_count = 5 // 4 = 1`, while `⌈5/4⌉ = 2`. -/
theorem c9_token_count_ceiling_counterexample :
    ∃ c ∈ chunkText "hello" 1500 200 "content",
      c.token_count ≠ (c.chunk_text.length + 3) / 4 := by
  decide

/-- C9 (amended): every chunk emitted by `chunk_text` has
`token_count = ⌊len(chunk_text)/4⌋` (Python `len(chunk_text) // 4`), which in
particular is never negative. -/
theorem c9_token_count_floor (text : String) (chunkSize chunkOverlap : Nat)
    (chunkType : String) (c : ChunkDraft)
    (hc : c ∈ chunkText text chunkSize chunkOverlap chunkType) :
    c.token_count = c.chunk_text.length / 4 ∧ 0 ≤ (c.token_count : Int) := by
  refine ⟨?_, Int.ofNat_nonneg _⟩
  unfold chunkText at hc
  split at hc
  · simp at hc
  · exact chunkLoop_token_count _ _ _ _ _ _ _ _ hc

/-- C9 witness: the floor law evaluated on the concrete chunking of "hello". -/
theorem c9_token_count_floor_witness :
    (⟨"hello", 0, "content", 0, 5, 1⟩ : ChunkDraft) ∈ chunkText "hello" 1500 200 "content" ∧
      (1 : Nat) = ("hello".length / 4) ∧ 0 ≤ ((1 : Nat) : Int) :=
  ⟨by decide, by
    have h := c9_token_count_floor "hello" 1500 200 "content"
      ⟨"hello", 0, "content", 0, 5, 1⟩ (by decide)
    exact ⟨h.1, h.2⟩⟩

/-! ## RetrievalContextBuilder (rag_context_service.py)

Retrieved rows as seen by the context builder and orchestrator: a chunk with
its parent note loaded, the note optionally linked to an audio file.
`created_at_str` models `note.created_at.strftime("%Y-%m-%d")` (the only use
of the note timestamp in this service); `created_at_iso` on the audio row
models `audio.created_at.isoformat()`. -/

/-- An `AudioFile` row, restricted to the fields this pipeline reads. -/
structure AudioRow where
  id : Nat
  original_filename : String
  duration : Int
  created_at_iso : Option String
  deriving Repr, DecidableEq

/-- A `Note` row as loaded through the `chunk.note` relationship. -/
structure RNote where
  id : Nat
  title : String
  audio_file : Option AudioRow
  created_at_str : String
  deriving Repr, DecidableEq

/-- A `NoteChunk` row as returned by the vector search. -/
structure RChunk where
  id : Nat
  chunk_text : String
  note : RNote
  deriving Repr, DecidableEq

/-- The per-chunk block assembled by `build_context` (the `chunk_text`
local of rag_context_service.py lines 82-89). -/
def contextBlock (c : RChunk) : String :=
  let audioName := match c.note.audio_file with
    | some a => a.original_filename
    | none => "N/A"
  "---\n" ++ "Nguồn: " ++ c.note.title ++ "\n" ++ "Audio: " ++ audioName ++ "\n" ++
    "Ngày: " ++ c.note.created_at_str ++ "\n" ++ "Nội dung: " ++ c.chunk_text ++ "\n" ++ "---\n"

/-- The accumulation loop of `build_context`: collect blocks in ranked order,
breaking before any block that would push the running block-length total
`total` over `maxChars`. -/
def buildContextParts (maxChars : Nat) : List RChunk → Nat → List String
  | [], _ => []
  | c :: rest, total =>
    let b := contextBlock c
    if total + b.length > maxChars then []
    else b :: buildContextParts maxChars rest (total + b.length)

/-- Python `"\n".join(parts)`. -/
def joinNewline : List String → String
  | [] => ""
  | [s] => s
  | s :: rest => s ++ "\n" ++ joinNewline rest

/-- `build_context(chunks, max_tokens=3000)`. -/
def buildContext (chunks : List RChunk) (maxTokens : Nat := 3000) : String :=
  joinNewline (buildContextParts (maxTokens * 4) chunks 0)

/-- `get_related_audio_files` dedup loop, carrying the `seen_ids` set. -/
def getRelatedAudioFilesAux : List RChunk → List Nat → List AudioRow
  | [], _ => []
  | c :: cs, seen =>
    match c.note.audio_file with
    | some a =>
      if a.id ∈ seen then getRelatedAudioFilesAux cs seen
      else a :: getRelatedAudioFilesAux cs (a.id :: seen)
    | none => getRelatedAudioFilesAux cs seen

/-- `get_related_audio_files(chunks)`: unique audio files, first-seen order. -/
def getRelatedAudioFiles (chunks : List RChunk) : List AudioRow :=
  getRelatedAudioFilesAux chunks []

/-- `get_related_notes` dedup loop, carrying the `seen_ids` set. -/
def getRelatedNotesAux : List RChunk → List Nat → List RNote
  | [], _ => []
  | c :: cs, seen =>
    if c.note.id ∈ seen then getRelatedNotesAux cs seen
    else c.note :: getRelatedNotesAux cs (c.note.id :: seen)

/-- `get_related_notes(chunks)`: unique parent notes, first-seen order. -/
def getRelatedNotes (chunks : List RChunk) : List RNote :=
  getRelatedNotesAux chunks []

/-- The block-length total accumulated by `build_context` never exceeds the
character budget: the sum of the collected parts' lengths fits in
`maxChars - total`. -/
theorem buildContextParts_length_sum (maxChars : Nat) :
    ∀ (chunks : List RChunk) (total : Nat),
      ((buildContextParts maxChars chunks total).map String.length).sum ≤ maxChars - total := by
  intro chunks
  induction chunks with
  | nil => intro total; simp [buildContextParts]
  | cons c rest ih =>
    intro total
    simp only [buildContextParts]
    split
    · simp
    · have h := ih (total + (contextBlock c).length)
      simp only [List.map_cons, List.sum_cons]
      omega

/-- The number of collected parts is at most the number of chunks. -/
theorem buildContextParts_length (maxChars : Nat) :
    ∀ (chunks : List RChunk) (total : Nat),
      (buildContextParts maxChars chunks total).length ≤ chunks.length := by
  intro chunks
  induction chunks with
  | nil => intro total; simp [buildContextParts]
  | cons c rest ih =>
    intro total
    simp only [buildContextParts]
    split
    · simp
    · simpa using Nat.succ_le_succ (ih (total + (contextBlock c).length))

/-- `"\n".join` adds one separator character between consecutive parts. -/
theorem joinNewline_length :
    ∀ parts : List String,
      (joinNewline parts).length ≤ (parts.map String.length).sum + parts.length - 1 := by
  intro parts
  induction parts with
  | nil => simp [joinNewline]
  | cons s rest ih =>
    cases rest with
    | nil => simp [joinNewline]
    | cons s' rest' =>
      simp only [joinNewline, String.length_append] at ih ⊢
      simp only [List.map_cons, List.sum_cons, List.length_cons] at ih ⊢
      have hb : "\n".length = 1 := rfl
      omega

/-- C3 (counterexample): the claim says the returned string's length never
exceeds the character budget `4 × max_tokens`, but the budget check counts
only block lengths while `"\n".join` inserts an uncounted separator between
blocks: two 58-character blocks against a 116-character budget join to a
117-character string. -/
theorem c3_budget_counterexample :
    ¬ ((buildContext
        [⟨1, "xy", ⟨1, "T", none, "2024-01-01"⟩⟩,
         ⟨2, "xy", ⟨1, "T", none, "2024-01-01"⟩⟩] 29).length ≤ 29 * 4) := by
  decide

/-- C3 (amended): `build_context` concatenates per-chunk blocks (source
title, linked-source name or "N/A", creation date, chunk text) in ranked
order and stops before any block whose length would push the running total
of block lengths over the character budget `4 × max_tokens`; the sum of the
included block lengths therefore never exceeds the budget, and the returned
string exceeds it by at most the `len(chunks) - 1` newline separators the
join inserts between blocks. -/
theorem c3_budget_bound (chunks : List RChunk) (maxTokens : Nat) :
    ((buildContextParts (maxTokens * 4) chunks 0).map String.length).sum ≤ maxTokens * 4 ∧
      (buildContext chunks maxTokens).length ≤ maxTokens * 4 + chunks.length - 1 := by
  constructor
  · simpa using buildContextParts_length_sum (maxTokens * 4) chunks 0
  · have h1 := joinNewline_length (buildContextParts (maxTokens * 4) chunks 0)
    have h2 := buildContextParts_length_sum (maxTokens * 4) chunks 0
    have h3 := buildContextParts_length (maxTokens * 4) chunks 0
    unfold buildContext
    omega

/-! ## JSON values and `json.loads` (used by intent_service.py)

A JSON value as produced by `json.loads`. Numbers keep their source lexeme
(the pipeline never does arithmetic on them); objects keep their fields in
source order, duplicates included, with lookups taking the last occurrence
to match Python dict construction. -/

inductive Json where
  | null
  | bool (b : Bool)
  | num (lexeme : String)
  | str (s : String)
  | arr (items : List Json)
  | obj (fields : List (String × Json))

/-- JSON whitespace (as skipped by Python's json scanner). -/
def jsonWsChar (c : Char) : Bool := c = ' ' || c = '\t' || c = '\n' || c = '\r'

/-- Skip JSON whitespace. -/
def skipWs (cs : List Char) : List Char := cs.dropWhile jsonWsChar

/-- Hexadecimal digit value. -/
def hexVal (c : Char) : Option Nat :=
  if '0' ≤ c ∧ c ≤ '9' then some (c.toNat - '0'.toNat)
  else if 'a' ≤ c ∧ c ≤ 'f' then some (c.toNat - 'a'.toNat + 10)
  else if 'A' ≤ c ∧ c ≤ 'F' then some (c.toNat - 'A'.toNat + 10)
  else none

/-- Parse a JSON string body (after the opening quote), handling the
escape sequences accepted by `json.loads`. `\uXXXX` maps through
`Char.ofNat` (lone surrogates collapse to NUL; the pipeline never feeds
surrogate escapes). Raw control characters are rejected as in strict mode. -/
def parseStringBody : List Char → Option (List Char × List Char)
  | [] => none
  | '"' :: rest => some ([], rest)
  | '\\' :: rest =>
    match rest with
    | [] => none
    | e :: rest' =>
      let simple : Option Char :=
        if e = '"' then some '"'
        else if e = '\\' then some '\\'
        else if e = '/' then some '/'
        else if e = 'b' then some '\x08'
        else if e = 'f' then some '\x0c'
        else if e = 'n' then some '\n'
        else if e = 'r' then some '\r'
        else if e = 't' then some '\t'
        else none
      match simple with
      | some c => (parseStringBody rest').map fun p => (c :: p.1, p.2)
      | none =>
        if e = 'u' then
          match rest' with
          | h1 :: h2 :: h3 :: h4 :: rest2 =>
            match hexVal h1, hexVal h2, hexVal h3, hexVal h4 with
            | some a, some b, some c, some d =>
              (parseStringBody rest2).map fun p =>
                (Char.ofNat (((a * 16 + b) * 16 + c) * 16 + d) :: p.1, p.2)
            | _, _, _, _ => none
          | _ => none
        else none
  | c :: rest =>
    if c.toNat < 32 then none
    else (parseStringBody rest).map fun p => (c :: p.1, p.2)

/-- Leading run of decimal digits and the remainder. -/
def takeDigits (cs : List Char) : List Char × List Char :=
  (cs.takeWhile Char.isDigit, cs.dropWhile Char.isDigit)

/-- Lex a JSON number exactly as Python's NUMBER_RE
`-?(0|[1-9]\d*)(\.\d+)?([eE][-+]?\d+)?` does (maximal munch; a dot or
exponent without digits is left unconsumed). Returns the lexeme. -/
def parseNumberLex (cs : List Char) : Option (String × List Char) :=
  let sp : List Char × List Char :=
    match cs with
    | '-' :: r => (['-'], r)
    | _ => ([], cs)
  let intPart : Option (List Char × List Char) :=
    match sp.2 with
    | '0' :: r => some (['0'], r)
    | c :: _ => if c.isDigit then some (takeDigits sp.2) else none
    | [] => none
  match intPart with
  | none => none
  | some (ip, r1) =>
    let fr : List Char × List Char :=
      match r1 with
      | '.' :: r =>
        let ds := takeDigits r
        if ds.1 = [] then ([], r1) else ('.' :: ds.1, ds.2)
      | _ => ([], r1)
    let ex : List Char × List Char :=
      match fr.2 with
      | e :: r =>
        if e = 'e' ∨ e = 'E' then
          match r with
          | s :: r2 =>
            if s = '+' ∨ s = '-' then
              let ds := takeDigits r2
              if ds.1 = [] then ([], fr.2) else (e :: s :: ds.1, ds.2)
            else
              let ds := takeDigits r
              if ds.1 = [] then ([], fr.2) else (e :: ds.1, ds.2)
          | [] => ([], fr.2)
        else ([], fr.2)
      | [] => ([], fr.2)
    some (⟨sp.1 ++ ip ++ fr.1 ++ ex.1⟩, ex.2)

mutual

/-- Parse one JSON value (fueled recursion; `jsonLoads` supplies ample
fuel). Mirrors Python's json scanner: literals, strings, numbers, arrays,
objects. -/
def parseValueF : Nat → List Char → Option (Json × List Char)
  | 0, _ => none
  | fuel + 1, cs =>
    match skipWs cs with
    | 'n' :: 'u' :: 'l' :: 'l' :: rest => some (.null, rest)
    | 't' :: 'r' :: 'u' :: 'e' :: rest => some (.bool true, rest)
    | 'f' :: 'a' :: 'l' :: 's' :: 'e' :: rest => some (.bool false, rest)
    | '"' :: rest => (parseStringBody rest).map fun p => (.str ⟨p.1⟩, p.2)
    | '\x7b' :: rest =>
      match skipWs rest with
      | '\x7d' :: rest2 => some (.obj [], rest2)
      | _ => (parseFieldsF fuel rest).map fun p => (.obj p.1, p.2)
    | '[' :: rest =>
      match skipWs rest with
      | ']' :: rest2 => some (.arr [], rest2)
      | _ => (parseItemsF fuel rest).map fun p => (.arr p.1, p.2)
    | rest => (parseNumberLex rest).map fun p => (.num p.1, p.2)

/-- Parse the comma-separated items of a non-empty JSON array, consuming
the closing bracket. -/
def parseItemsF : Nat → List Char → Option (List Json × List Char)
  | 0, _ => none
  | fuel + 1, cs =>
    match parseValueF fuel cs with
    | none => none
    | some (v, r) =>
      match skipWs r with
      | ',' :: r2 => (parseItemsF fuel r2).map fun p => (v :: p.1, p.2)
      | ']' :: r2 => some ([v], r2)
      | _ => none

/-- Parse the fields of a non-empty JSON object, consuming the closing
brace. -/
def parseFieldsF : Nat → List Char → Option (List (String × Json) × List Char)
  | 0, _ => none
  | fuel + 1, cs =>
    match skipWs cs with
    | '"' :: rest =>
      match parseStringBody rest with
      | none => none
      | some (k, r) =>
        match skipWs r with
        | ':' :: r2 =>
          match parseValueF fuel r2 with
          | none => none
          | some (v, r3) =>
            match skipWs r3 with
            | ',' :: r4 => (parseFieldsF fuel r4).map fun p => ((⟨k⟩, v) :: p.1, p.2)
            | '\x7d' :: r4 => some ([(⟨k⟩, v)], r4)
            | _ => none
        | _ => none
    | _ => none

end

/-- `json.loads(s)`: parse one value and require only whitespace after it
("Extra data" otherwise). -/
def jsonLoads (s : String) : Option Json :=
  match parseValueF (2 * s.data.length + 8) s.data with
  | some (v, rest) => if skipWs rest = [] then some v else none
  | none => none

/-- Python dict lookup after building a dict from the field list: the last
occurrence of a key wins. -/
def objGetLast (fields : List (String × Json)) (key : String) : Option Json :=
  match fields with
  | [] => none
  | (k, v) :: rest =>
    match objGetLast rest key with
    | some v2 => some v2
    | none => if k = key then some v else none

/-- A JSON number is (Python-)falsy iff its mantissa digits are all zero. -/
def numLexZero (lexeme : String) : Bool :=
  ((lexeme.data.takeWhile fun c => c ≠ 'e' && c ≠ 'E').filter Char.isDigit).all (· = '0')

/-- Python truthiness of a parsed JSON value (`if parsed:`). -/
def jsonTruthy : Json → Bool
  | .null => false
  | .bool b => b
  | .num lexeme => ! numLexZero lexeme
  | .str s => s ≠ ""
  | .arr items => ! items.isEmpty
  | .obj fields => ! fields.isEmpty

/-! ## IntentService response parsing (intent_service.py lines 54-106) -/

/-- Index of the first occurrence of `c`. -/
def firstIdxAux (c : Char) : List Char → Nat → Option Nat
  | [], _ => none
  | x :: xs, k => if x = c then some k else firstIdxAux c xs (k + 1)

/-- Index of the first occurrence of `c` in `l`. -/
def firstIdx (c : Char) (l : List Char) : Option Nat := firstIdxAux c l 0

/-- Index of the last occurrence of `c` in `l`. -/
def lastIdx (c : Char) (l : List Char) : Option Nat :=
  (firstIdx c l.reverse).map fun k => l.length - 1 - k

/-- The substring matched by `re.search(r"\x7b.*\x7d", text, re.DOTALL)`:
greedy, so from the first opening brace to the last closing brace (when the
latter comes after the former), not the first balanced block. -/
def greedyBraceSubstring (s : String) : Option String :=
  match firstIdx '\x7b' s.data, lastIdx '\x7d' s.data with
  | some i, some j => if i < j then some ⟨pySlice s.data (i : Int) ((j : Int) + 1)⟩ else none
  | _, _ => none

/-- `IntentService._extract_json(text)`: direct `json.loads`, then
`json.loads` on the greedy brace substring, else `None`. -/
def extractJson (text : String) : Option Json :=
  match jsonLoads text with
  | some v => some v
  | none =>
    match greedyBraceSubstring text with
    | some sub => jsonLoads sub
    | none => none

/-- The safe default intent dict
`\x7b"intent": "chat", "confidence": 0.4, "entities": \x7b\x7d\x7d`. -/
def intentDefault : Json :=
  .obj [("intent", .str "chat"), ("confidence", .num "0.4"), ("entities", .obj [])]

/-- The response-parsing half of `classify_intent`: given the generative
model's raw response text, return the extracted JSON if truthy
(`if parsed: return parsed`), else the safe default. (The exception branch
returns the same three default fields plus an `error` key.) -/
def classifyIntentParse (responseText : String) : Json :=
  match extractJson responseText with
  | some v => if jsonTruthy v then v else intentDefault
  | none => intentDefault

/-- Balance scan: consume until the brace depth returns to zero, keeping the
consumed characters. -/
def balancedFrom : List Char → Nat → List Char → Option (List Char)
  | [], _, _ => none
  | c :: rest, depth, acc =>
    if c = '\x7b' then balancedFrom rest (depth + 1) (c :: acc)
    else if c = '\x7d' then
      if depth ≤ 1 then some (c :: acc).reverse
      else balancedFrom rest (depth - 1) (c :: acc)
    else balancedFrom rest depth (c :: acc)

/-- Modelled from the spec: "scan for the first balanced `\x7b...\x7d`
substring" — the substring from the first opening brace to the matching
closing brace. Stated only to compare with the code's
`greedyBraceSubstring`. -/
def firstBalancedBraceSubstring (s : String) : Option String :=
  match s.data.dropWhile (fun c => c ≠ '\x7b') with
  | [] => none
  | c :: rest => (balancedFrom (c :: rest) 0 []).map fun l => ⟨l⟩

/-- The fixed six-intent taxonomy of the orchestrator's membership check. -/
def sixIntents : List String := ["search", "summarize", "question", "manage", "analytics", "chat"]

/-- The orchestrator's normalization (chatbot_service.py lines 44-46):
any intent outside the six-value set becomes "chat". -/
def normalizeIntent (i : String) : String := if i ∈ sixIntents then i else "chat"

/-- The orchestrator's intent extraction from the classifier's return value:
`intent_result.get("intent", "chat")` then normalization. `none` models the
`AttributeError` raised when the classifier returned a truthy non-dict JSON
value (a list `.get` does not exist). Non-string intent values fail the
set-membership test and normalize to "chat". -/
def intentOf : Json → Option String
  | .obj fields =>
    some (match (objGetLast fields "intent").getD (.str "chat") with
      | .str s => normalizeIntent s
      | _ => "chat")
  | _ => none

/-- Every normalized intent lies in the six-value taxonomy. -/
theorem normalizeIntent_mem (s : String) : normalizeIntent s ∈ sixIntents := by
  unfold normalizeIntent
  split
  · assumption
  · simp [sixIntents]

/-- The parse-model returns either the safe default or a truthy extracted
value. -/
theorem classifyIntentParse_cases (text : String) :
    classifyIntentParse text = intentDefault ∨
      ∃ v, jsonTruthy v = true ∧ classifyIntentParse text = v := by
  unfold classifyIntentParse
  cases extractJson text with
  | none => exact Or.inl rfl
  | some v =>
    by_cases ht : jsonTruthy v
    · exact Or.inr ⟨v, ht, by
        show (if jsonTruthy v = true then v else intentDefault) = v
        rw [if_pos ht]⟩
    · exact Or.inl (by
        show (if jsonTruthy v = true then v else intentDefault) = intentDefault
        rw [if_neg ht])

/-- C5 (counterexample): the claim says the fallback parses the first
balanced `\x7b...\x7d` substring, but the code's regex `\x7b.*\x7d` is
greedy (first opening brace to last closing brace). On the response
`x\x7b"intent": "search"\x7d \x7d` the first balanced substring parses to
`\x7b"intent": "search"\x7d`, yet `_extract_json` parses the greedy match
(which fails on the trailing brace) and the classifier falls back to the
safe default instead of the "search" intent. -/
theorem c5_balanced_fallback_counterexample :
    extractJson "x\x7b\"intent\": \"search\"\x7d \x7d" = none ∧
      (firstBalancedBraceSubstring "x\x7b\"intent\": \"search\"\x7d \x7d").bind jsonLoads =
        some (Json.obj [("intent", Json.str "search")]) ∧
      classifyIntentParse "x\x7b\"intent\": \"search\"\x7d \x7d" = intentDefault :=
  ⟨rfl, rfl, rfl⟩

/-- C5 (amended): intent-response parsing falls back in a fixed order —
direct JSON parse; on failure, a parse of the greedy substring from the
first opening brace to the last closing brace; on any further failure (or a
falsy parse result) the safe default `intent=chat, confidence=0.4,
entities=\x7b\x7d`; and whatever string the orchestrator extracts is
normalized into the fixed six-value set (a truthy non-object parse is the
one shape that escapes as an orchestrator exception). -/
theorem c5_parse_fallback_order (text : String) :
    (∀ v, jsonLoads text = some v → extractJson text = some v) ∧
      (jsonLoads text = none → extractJson text = (greedyBraceSubstring text).bind jsonLoads) ∧
      (extractJson text = none → classifyIntentParse text = intentDefault) ∧
      (∀ v, extractJson text = some v →
        classifyIntentParse text = if jsonTruthy v then v else intentDefault) ∧
      (∀ s, intentOf (classifyIntentParse text) = some s → s ∈ sixIntents) := by
  refine ⟨?_, ?_, ?_, ?_, ?_⟩
  · intro v h; unfold extractJson; rw [h]
  · intro h
    unfold extractJson
    rw [h]
    cases hg : greedyBraceSubstring text <;> simp
  · intro h; unfold classifyIntentParse; rw [h]
  · intro v h; unfold classifyIntentParse; rw [h]
  · intro s h
    have hdef : ∀ s2, intentOf intentDefault = some s2 → s2 ∈ sixIntents := by
      intro s2 h2
      have hc : intentOf intentDefault = some "chat" := rfl
      rw [hc] at h2
      cases h2
      simp [sixIntents]
    rcases classifyIntentParse_cases text with hc | ⟨v, ht, hc⟩
    · rw [hc] at h; exact hdef s h
    · rw [hc] at h
      cases v with
      | obj fields =>
        simp only [intentOf, Option.some.injEq] at h
        subst h
        split
        · exact normalizeIntent_mem _
        · simp [sixIntents]
      | null => simp [intentOf] at h
      | bool b => simp [intentOf] at h
      | num lexeme => simp [intentOf] at h
      | str s2 => simp [intentOf] at h
      | arr items => simp [intentOf] at h

/-- C5 witness: the fallback order evaluated on a well-formed response. -/
theorem c5_parse_fallback_order_witness :
    extractJson "\x7b\"intent\": \"search\"\x7d" =
        some (Json.obj [("intent", Json.str "search")]) ∧
      "search" ∈ sixIntents :=
  ⟨(c5_parse_fallback_order "\x7b\"intent\": \"search\"\x7d").1
      (Json.obj [("intent", Json.str "search")]) rfl,
    (c5_parse_fallback_order "\x7b\"intent\": \"search\"\x7d").2.2.2.2 "search" rfl⟩

/-! ## EmbeddingGateway (embedding_service.py)

The external embedding API is an oracle: `single text task` models the end
result of one `embed_content` call on a single text (after
`_embed_content_with_retry`, `_extract_embeddings` and the first-element
check, with `none` for any caught failure); `batch texts task` models one
list request, `none` when it raises after retries. Rate limiting and
backoff are timing behavior with no effect on returned values and are
abstracted into the oracle. -/

/-- An embedding vector. -/
abbrev Vec := List ℚ

/-- The external embedding API as consulted by the gateway. -/
structure Provider where
  single : String → String → Option Vec
  batch : List String → String → Option (List (Option Vec))

/-- `_MAX_CHARS_PER_EMBEDDING`. -/
def MAX_CHARS_PER_EMBEDDING : Nat := 20000

/-- `_MAX_TOKENS_PER_BATCH`. -/
def MAX_TOKENS_PER_BATCH : Nat := 18000

/-- `_EMBEDDING_BATCH_SIZE` (default: env unset, `max(1, 5) = 5`). -/
def EMBEDDING_BATCH_SIZE : Nat := 5

/-- `generate_embedding(text, task_type)`: empty/whitespace-only text
short-circuits to `None`; text over the hard character ceiling is truncated;
then one provider call whose failure degrades to `None`. -/
def generateEmbedding (P : Provider) (text : String)
    (taskType : String := "RETRIEVAL_DOCUMENT") : Option Vec :=
  if pyStrip text = "" then none
  else
    let t := if text.length > MAX_CHARS_PER_EMBEDDING
      then (⟨text.data.take MAX_CHARS_PER_EMBEDDING⟩ : String) else text
    P.single t taskType

/-- `_estimate_token_count(text)`: `len(text) // 4 + 1`. -/
def estimateTokenCount (text : String) : Nat := text.length / 4 + 1

/-- `enumerate(texts)` starting at index `k`. -/
def enumFrom : Nat → List String → List (Nat × String)
  | _, [] => []
  | k, t :: ts => (k, t) :: enumFrom (k + 1) ts

/-- The accumulation loop of `_create_token_aware_batches`: `cur` is the
current batch of indices, `tok` its accumulated token estimate. -/
def createBatchesAux (mbs : Nat) : List (Nat × String) → List Nat → Nat → List (List Nat)
  | [], cur, _ => if cur = [] then [] else [cur]
  | (i, t) :: rest, cur, tok =>
    let tt := estimateTokenCount t
    if tt > MAX_TOKENS_PER_BATCH then
      (if cur = [] then [] else [cur]) ++ [i] :: createBatchesAux mbs rest [] 0
    else if tok + tt > MAX_TOKENS_PER_BATCH ∨ cur.length ≥ mbs then
      (if cur = [] then [] else [cur]) ++ createBatchesAux mbs rest [i] tt
    else
      createBatchesAux mbs rest (cur ++ [i]) (tok + tt)

/-- `_create_token_aware_batches(texts, max_batch_size)`: batches of indices
into `texts`. -/
def createTokenAwareBatches (texts : List String) (mbs : Nat) : List (List Nat) :=
  createBatchesAux mbs (enumFrom 0 texts) [] 0

/-- `for i, embedding in enumerate(batch_embeddings):
embeddings[batch_indices[i]] = embedding`. -/
def setMany : List (Option Vec) → List Nat → List (Option Vec) → List (Option Vec)
  | emb, i :: is, v :: vs => setMany (emb.set i v) is vs
  | emb, _, _ => emb

/-- One iteration of the batch loop of `generate_embeddings_batch`:
singleton batches go through `generate_embedding`; list requests pad or
truncate a mismatched response to the batch length; a failed list request
falls back to per-item `generate_embedding`. -/
def processBatch (P : Provider) (taskType : String) (texts : List String)
    (emb : List (Option Vec)) (b : List Nat) : List (Option Vec) :=
  let batchTexts := b.map fun i => texts.getD i ""
  if b.length = 1 then
    emb.set (b.headD 0) (generateEmbedding P (batchTexts.headD "") taskType)
  else
    match P.batch batchTexts taskType with
    | some res =>
      let res2 := if res.length < b.length
        then res ++ List.replicate (b.length - res.length) none
        else res.take b.length
      setMany emb b res2
    | none =>
      b.foldl (fun e i => e.set i (generateEmbedding P (texts.getD i "") taskType)) emb

/-- `generate_embeddings_batch(texts, task_type)` with the configured batch
size ceiling. -/
def generateEmbeddingsBatch (P : Provider) (texts : List String)
    (taskType : String := "RETRIEVAL_DOCUMENT")
    (mbs : Nat := EMBEDDING_BATCH_SIZE) : List (Option Vec) :=
  if texts.isEmpty then []
  else
    (createTokenAwareBatches texts mbs).foldl (processBatch P taskType texts)
      (List.replicate texts.length none)

/-- The enumeration's first components are the consecutive indices. -/
theorem enumFrom_map_fst : ∀ (k : Nat) (ts : List String),
    (enumFrom k ts).map Prod.fst = List.range' k ts.length := by
  intro k ts
  induction ts generalizing k with
  | nil => simp [enumFrom]
  | cons t ts ih => simp [enumFrom, List.range'_succ, ih]

/-- Every enumerated pair holds the text at its index. -/
theorem enumFrom_getD : ∀ (k : Nat) (ts : List String) (p : Nat × String),
    p ∈ enumFrom k ts → k ≤ p.1 ∧ ts.getD (p.1 - k) "" = p.2 := by
  intro k ts
  induction ts generalizing k with
  | nil => intro p h; simp [enumFrom] at h
  | cons t ts ih =>
    intro p h
    rcases List.mem_cons.mp h with rfl | h
    · simp
    · have h2 := ih (k + 1) p h
      refine ⟨by omega, ?_⟩
      have hk : p.1 - k = (p.1 - (k + 1)) + 1 := by omega
      rw [hk]
      simpa using h2.2

/-- The batch accumulation loop emits the pending batch followed by all
remaining indices, in order. -/
theorem createBatchesAux_flatten (mbs : Nat) :
    ∀ (l : List (Nat × String)) (cur : List Nat) (tok : Nat),
      (createBatchesAux mbs l cur tok).flatten = cur ++ l.map Prod.fst := by
  intro l
  induction l with
  | nil =>
    intro cur tok
    simp only [createBatchesAux]
    split <;> simp_all
  | cons p rest ih =>
    rcases p with ⟨i, t⟩
    intro cur tok
    simp only [createBatchesAux]
    split
    · rcases Decidable.em (cur = []) with hc | hc <;>
        simp [hc, ih, List.flatten_append]
    · split
      · rcases Decidable.em (cur = []) with hc | hc <;>
          simp [hc, ih, List.flatten_append]
      · simp [ih]

/-- Token estimate of a batch of indices into `texts`. -/
def batchTokens (texts : List String) (b : List Nat) : Nat :=
  (b.map fun i => estimateTokenCount (texts.getD i "")).sum

/-- Size and token bounds for every batch the accumulation loop emits,
given the loop invariants on the pending batch. -/
theorem createBatchesAux_bounds (texts : List String) (mbs : Nat) (hm : 1 ≤ mbs) :
    ∀ (l : List (Nat × String)) (cur : List Nat) (tok : Nat),
      (∀ p ∈ l, texts.getD p.1 "" = p.2) →
      cur.length ≤ mbs →
      batchTokens texts cur = tok →
      tok ≤ MAX_TOKENS_PER_BATCH →
      ∀ b ∈ createBatchesAux mbs l cur tok,
        b.length ≤ mbs ∧
          (batchTokens texts b ≤ MAX_TOKENS_PER_BATCH ∨
            ∃ i, b = [i] ∧ estimateTokenCount (texts.getD i "") > MAX_TOKENS_PER_BATCH) := by
  intro l
  induction l with
  | nil =>
    intro cur tok hw hlen hsum htok b hb
    simp only [createBatchesAux] at hb
    split at hb
    · simp at hb
    · rcases List.mem_singleton.mp hb with rfl
      exact ⟨hlen, Or.inl (hsum ▸ htok)⟩
  | cons p rest ih =>
    rcases p with ⟨i, t⟩
    intro cur tok hw hlen hsum htok b hb
    have hwi : texts.getD i "" = t := hw (i, t) (List.mem_cons_self _ _)
    rw [List.getD_eq_getElem?_getD] at hwi
    have hwrest : ∀ p ∈ rest, texts.getD p.1 "" = p.2 :=
      fun p hp => hw p (List.mem_cons_of_mem _ hp)
    simp only [createBatchesAux] at hb
    split at hb
    · -- oversized single text: emit cur, then [i], then recurse fresh
      rw [List.mem_append] at hb
      rcases hb with hb | hb
      · split at hb
        · simp at hb
        · rcases List.mem_singleton.mp hb with rfl
          exact ⟨hlen, Or.inl (hsum ▸ htok)⟩
      · rcases List.mem_cons.mp hb with rfl | hb
        · refine ⟨by simp [hm], Or.inr ⟨i, rfl, ?_⟩⟩
          rw [List.getD_eq_getElem?_getD, hwi]
          assumption
        · exact ih [] 0 hwrest (by simp) rfl (by simp [MAX_TOKENS_PER_BATCH]) b hb
    · split at hb
      · -- close the pending batch, start a fresh one with index i
        rw [List.mem_append] at hb
        rcases hb with hb | hb
        · split at hb
          · simp at hb
          · rcases List.mem_singleton.mp hb with rfl
            exact ⟨hlen, Or.inl (hsum ▸ htok)⟩
        · refine ih [i] (estimateTokenCount t) hwrest (by simpa using hm) ?_ (by omega) b hb
          simp [batchTokens, hwi]
      · -- append index i to the pending batch
        have hlt : cur.length < mbs := by omega
        refine ih (cur ++ [i]) (tok + estimateTokenCount t) hwrest ?_ ?_ (by omega) b hb
        · simpa using hlt
        · simp [batchTokens, hwi] at hsum ⊢
          omega

/-- C7: `_create_token_aware_batches` partitions the index sequence
`0..len(texts)-1` in order, every batch has at most `max_batch_size`
elements, and every batch's estimated token total stays within
`_MAX_TOKENS_PER_BATCH` except for a single oversized text isolated in its
own singleton batch. -/
theorem c7_token_aware_batching (texts : List String) (mbs : Nat) (hm : 1 ≤ mbs) :
    (createTokenAwareBatches texts mbs).flatten = List.range texts.length ∧
      ∀ b ∈ createTokenAwareBatches texts mbs,
        b.length ≤ mbs ∧
          (batchTokens texts b ≤ MAX_TOKENS_PER_BATCH ∨
            ∃ i, b = [i] ∧ estimateTokenCount (texts.getD i "") > MAX_TOKENS_PER_BATCH) := by
  constructor
  · rw [createTokenAwareBatches, createBatchesAux_flatten, enumFrom_map_fst,
      List.range_eq_range']
    simp
  · intro b hb
    refine createBatchesAux_bounds texts mbs hm (enumFrom 0 texts) [] 0 ?_ (by simp) rfl
      (by simp [MAX_TOKENS_PER_BATCH]) b hb
    intro p hp
    simpa using (enumFrom_getD 0 texts p hp).2

/-- C7 witness: the batching law evaluated at a concrete text list and
ceiling. -/
theorem c7_token_aware_batching_witness :
    (createTokenAwareBatches ["one", "two", "three"] 2).flatten = List.range 3 ∧
      ∀ b ∈ createTokenAwareBatches ["one", "two", "three"] 2,
        b.length ≤ 2 ∧
          (batchTokens ["one", "two", "three"] b ≤ MAX_TOKENS_PER_BATCH ∨
            ∃ i, b = [i] ∧
              estimateTokenCount ((["one", "two", "three"] : List String).getD i "") >
                MAX_TOKENS_PER_BATCH) :=
  c7_token_aware_batching ["one", "two", "three"] 2 (by omega)

/-- `setMany` preserves the length of the embeddings list. -/
theorem setMany_length : ∀ (idxs : List Nat) (emb vals : List (Option Vec)),
    (setMany emb idxs vals).length = emb.length := by
  intro idxs
  induction idxs with
  | nil => intro emb vals; cases vals <;> simp [setMany]
  | cons i is ih =>
    intro emb vals
    cases vals with
    | nil => simp [setMany]
    | cons v vs => simp [setMany, ih, List.length_set]

/-- Per-item writes preserve the length of the embeddings list. -/
theorem foldl_set_length (f : Nat → Option Vec) :
    ∀ (is : List Nat) (emb : List (Option Vec)),
      (is.foldl (fun e i => e.set i (f i)) emb).length = emb.length := by
  intro is
  induction is with
  | nil => intro emb; simp
  | cons i is ih => intro emb; simp [ih, List.length_set]

/-- One batch iteration preserves the length of the embeddings list. -/
theorem processBatch_length (P : Provider) (taskType : String) (texts : List String)
    (emb : List (Option Vec)) (b : List Nat) :
    (processBatch P taskType texts emb b).length = emb.length := by
  simp only [processBatch]
  split
  · simp [List.length_set]
  · split
    · exact setMany_length _ _ _
    · exact foldl_set_length _ _ _

/-- The whole batch loop preserves the length of the embeddings list. -/
theorem foldl_processBatch_length (P : Provider) (taskType : String) (texts : List String) :
    ∀ (bs : List (List Nat)) (emb : List (Option Vec)),
      (bs.foldl (processBatch P taskType texts) emb).length = emb.length := by
  intro bs
  induction bs with
  | nil => intro emb; simp
  | cons b bs ih => intro emb; simp [ih, processBatch_length]

/-- When every list request fails, one batch iteration is exactly the
per-item fallback writes. -/
theorem processBatch_allFail (P : Provider) (taskType : String) (texts : List String)
    (hP : ∀ l t2, P.batch l t2 = none) (emb : List (Option Vec)) (b : List Nat) :
    processBatch P taskType texts emb b =
      b.foldl (fun e i => e.set i (generateEmbedding P (texts.getD i "") taskType)) emb := by
  simp only [processBatch]
  split
  · rcases b with _ | ⟨i, _ | ⟨j, rest⟩⟩
    · simp_all
    · simp
    · simp_all
  · rw [hP]

/-- When every list request fails, the batch loop is the per-item fallback
over the concatenated batches. -/
theorem foldl_processBatch_flatten (P : Provider) (taskType : String) (texts : List String)
    (hP : ∀ l t2, P.batch l t2 = none) :
    ∀ (bs : List (List Nat)) (emb : List (Option Vec)),
      bs.foldl (processBatch P taskType texts) emb =
        bs.flatten.foldl
          (fun e i => e.set i (generateEmbedding P (texts.getD i "") taskType)) emb := by
  intro bs
  induction bs with
  | nil => intro emb; simp
  | cons b bs ih =>
    intro emb
    simp only [List.foldl_cons, List.flatten_cons, List.foldl_append]
    rw [processBatch_allFail P taskType texts hP, ih]

/-- Positions outside the written index set keep their previous value. -/
theorem foldl_set_getD_not_mem (f : Nat → Option Vec) :
    ∀ (is : List Nat) (emb : List (Option Vec)) (i : Nat), i ∉ is →
      (is.foldl (fun e j => e.set j (f j)) emb).getD i none = emb.getD i none := by
  intro is
  induction is with
  | nil => intro emb i _; simp
  | cons j js ih =>
    intro emb i hi
    have hij : i ≠ j := fun h => hi (h ▸ List.mem_cons_self _ _)
    have hji : i ∉ js := fun h => hi (List.mem_cons_of_mem _ h)
    simp only [List.foldl_cons]
    rw [ih _ _ hji, List.getD_eq_getElem?_getD, List.getD_eq_getElem?_getD,
      List.getElem?_set_ne (Ne.symm hij)]

/-- Every written position in range ends up holding its per-index value. -/
theorem foldl_set_getD_mem (f : Nat → Option Vec) :
    ∀ (is : List Nat) (emb : List (Option Vec)) (i : Nat), i ∈ is → i < emb.length →
      (is.foldl (fun e j => e.set j (f j)) emb).getD i none = f i := by
  intro is
  induction is with
  | nil => intro emb i hi; simp at hi
  | cons j js ih =>
    intro emb i hi hlen
    by_cases hji : i ∈ js
    · simp only [List.foldl_cons]
      exact ih _ _ hji (by simpa [List.length_set] using hlen)
    · have hij : i = j := by
        rcases List.mem_cons.mp hi with h | h
        · exact h
        · exact absurd h hji
      subst hij
      simp only [List.foldl_cons]
      rw [foldl_set_getD_not_mem f js _ i hji, List.getD_eq_getElem?_getD,
        List.getElem?_set_eq_of_lt _ hlen]
      rfl

/-- C4: `generate_embeddings_batch` returns exactly `len(texts)` results,
position-aligned with the input; it is a total function (partial provider
failures degrade to `None` entries, count mismatches are padded/truncated by
construction), and when every list request fails each position holds
exactly the per-item `generate_embedding` fallback for its own text. -/
theorem c4_embed_many_shape (P : Provider) (texts : List String)
    (taskType : String) (mbs : Nat) :
    (generateEmbeddingsBatch P texts taskType mbs).length = texts.length ∧
      ((∀ l t2, P.batch l t2 = none) → ∀ i, i < texts.length →
        (generateEmbeddingsBatch P texts taskType mbs).getD i none =
          generateEmbedding P (texts.getD i "") taskType) := by
  constructor
  · unfold generateEmbeddingsBatch
    split
    · simp_all [List.isEmpty_iff]
    · rw [foldl_processBatch_length]
      simp
  · intro hP i hi
    unfold generateEmbeddingsBatch
    split
    · rename_i hempty
      rw [List.isEmpty_iff.mp hempty] at hi
      simp at hi
    · rw [foldl_processBatch_flatten P taskType texts hP]
      have hflat : (createTokenAwareBatches texts mbs).flatten = List.range texts.length := by
        rw [createTokenAwareBatches, createBatchesAux_flatten, enumFrom_map_fst,
          List.range_eq_range']
        simp
      rw [hflat]
      exact foldl_set_getD_mem _ _ _ _ (List.mem_range.mpr hi) (by simpa using hi)

/-- A provider whose every call fails. -/
def failProvider : Provider := ⟨fun _ _ => none, fun _ _ => none⟩

/-- C4 witness: shape and fallback alignment evaluated at a concrete
provider and text list. -/
theorem c4_embed_many_shape_witness :
    (generateEmbeddingsBatch failProvider ["ab", "cd"] "RETRIEVAL_DOCUMENT" 5).length = 2 ∧
      (generateEmbeddingsBatch failProvider ["ab", "cd"] "RETRIEVAL_DOCUMENT" 5).getD 0 none =
        generateEmbedding failProvider "ab" "RETRIEVAL_DOCUMENT" :=
  ⟨(c4_embed_many_shape failProvider ["ab", "cd"] "RETRIEVAL_DOCUMENT" 5).1,
    (c4_embed_many_shape failProvider ["ab", "cd"] "RETRIEVAL_DOCUMENT" 5).2
      (fun _ _ => rfl) 0 (by decide)⟩

/-- A provider whose batch call answers the `["", "hello"]` request with
two one-entry vectors. -/
def twoVecProvider : Provider := ⟨fun _ _ => none, fun _ _ => some [some [1], some [2]]⟩

/-- `embed_many(["", "hello"])` reduces to a single two-text batch request:
the response is placed positionally (padded/truncated to two entries), and
only the failure path falls back to per-item embedding (where the empty
text short-circuits to `None`). -/
theorem c8_reduce (P : Provider) :
    generateEmbeddingsBatch P ["", "hello"] "RETRIEVAL_DOCUMENT" 5 =
      match P.batch ["", "hello"] "RETRIEVAL_DOCUMENT" with
      | some res =>
        setMany [none, none] [0, 1]
          (if res.length < 2 then res ++ List.replicate (2 - res.length) none
           else res.take 2)
      | none => [none, generateEmbedding P "hello" "RETRIEVAL_DOCUMENT"] := rfl

/-- C8 (counterexample): the claim says index 0 of
`embed_many(["", "hello"])` is null because the empty input is
short-circuited with no API call; in fact both texts are sent together in
one batch request, and a provider answering it yields a non-null entry at
index 0. -/
theorem c8_empty_short_circuit_counterexample :
    generateEmbeddingsBatch twoVecProvider ["", "hello"] "RETRIEVAL_DOCUMENT" 5 =
        [some [(1 : ℚ)], some [2]] ∧
      (generateEmbeddingsBatch twoVecProvider ["", "hello"] "RETRIEVAL_DOCUMENT" 5).getD 0 none ≠
        none := by
  refine ⟨rfl, ?_⟩
  intro h
  simp [c8_reduce, twoVecProvider, setMany] at h

/-- C8 (amended): `embed_many(["", "hello"])` returns a two-element list and
never raises; the two texts are sent together in one batch request (the
empty string is not short-circuited on the batch path), so index 0 holds
whatever the provider returned at position 0; only when the batch request
fails does the per-item fallback short-circuit the empty input (with no
provider consultation) to null at index 0, with index 1 the per-item result
for "hello"; and when the provider honors the requested 768
dimensionality, every non-null entry has length 768. -/
theorem c8_embed_pair (P : Provider) :
    (generateEmbeddingsBatch P ["", "hello"] "RETRIEVAL_DOCUMENT" 5).length = 2 ∧
      generateEmbedding P "" "RETRIEVAL_DOCUMENT" = none ∧
      ((∀ l t2, P.batch l t2 = none) →
        generateEmbeddingsBatch P ["", "hello"] "RETRIEVAL_DOCUMENT" 5 =
          [none, generateEmbedding P "hello" "RETRIEVAL_DOCUMENT"]) ∧
      ((∀ t t2 v, P.single t t2 = some v → v.length = 768) →
        (∀ l t2 res, P.batch l t2 = some res → ∀ ov ∈ res, ∀ v, ov = some v → v.length = 768) →
        ∀ i v,
          (generateEmbeddingsBatch P ["", "hello"] "RETRIEVAL_DOCUMENT" 5).getD i none = some v →
          v.length = 768) := by
  refine ⟨?_, rfl, ?_, ?_⟩
  · rw [c8_reduce]
    cases hres : P.batch ["", "hello"] "RETRIEVAL_DOCUMENT" with
    | none => rfl
    | some res => rw [setMany_length]; rfl
  · intro hP
    rw [c8_reduce, hP]
  · intro hs hb i v hv
    rw [c8_reduce] at hv
    cases hres : P.batch ["", "hello"] "RETRIEVAL_DOCUMENT" with
    | none =>
      rw [hres] at hv
      match i with
      | 0 => simp at hv
      | 1 =>
        simp only [List.getD_cons_succ, List.getD_cons_zero] at hv
        have hred : generateEmbedding P "hello" "RETRIEVAL_DOCUMENT" =
            P.single "hello" "RETRIEVAL_DOCUMENT" := rfl
        rw [hred] at hv
        exact hs _ _ _ hv
      | n + 2 => simp [List.getD] at hv
    | some res =>
      rw [hres] at hv
      rcases res with _ | ⟨a, _ | ⟨b2, rest⟩⟩
      · match i with
        | 0 => simp [setMany, List.replicate] at hv
        | 1 => simp [setMany, List.replicate] at hv
        | n + 2 => simp [setMany, List.replicate, List.getD] at hv
      · match i with
        | 0 =>
          simp only [setMany, List.getD_cons_zero] at hv
          exact hb _ _ _ hres a (List.mem_singleton.mpr rfl) v (by simpa using hv)
        | 1 => simp [setMany, List.getD] at hv
        | n + 2 => simp [setMany, List.getD] at hv
      · match i with
        | 0 =>
          simp only [setMany, List.getD_cons_zero] at hv
          exact hb _ _ _ hres a (List.mem_cons_self _ _) v (by simpa using hv)
        | 1 =>
          simp only [setMany, List.getD_cons_succ, List.getD_cons_zero] at hv
          exact hb _ _ _ hres b2 (List.mem_cons_of_mem _ (List.mem_cons_self _ _)) v
            (by simpa using hv)
        | n + 2 => simp [setMany, List.getD] at hv

/-- C8 witness: the amended behavior evaluated at the all-failing provider:
the batch request fails, the fallback short-circuits the empty text, and
the "hello" item degrades to null as well. -/
theorem c8_embed_pair_witness :
    generateEmbeddingsBatch failProvider ["", "hello"] "RETRIEVAL_DOCUMENT" 5 = [none, none] :=
  (c8_embed_pair failProvider).2.2.1 fun _ _ => rfl

/-! ## VectorStore accessor: `semantic_search_with_filters`
(rag_context_service.py lines 20-71)

The SQL query is embedded as: inner join chunk -> parent note, WHERE
filters, ORDER BY the pgvector cosine-distance operator ascending, LIMIT.
The distance operator of the database is a parameter `dist`; note creation
timestamps are day-granularity ordinals, and `date_range` entity values are
the `YYYY-MM-DD` strings the intent schema prescribes (other
`datetime.fromisoformat` inputs are out of the model). -/

/-- A `NoteChunk` row as stored. -/
structure ChunkRow where
  id : Nat
  note_id : Nat
  chunk_text : String
  chunk_type : String
  embedding : Vec
  deriving Repr, DecidableEq

/-- A `Note` row, restricted to the fields the search filters read. -/
structure NoteRow where
  id : Nat
  user_id : Nat
  is_archived : Bool
  category : String
  audio_file_id : Option Nat
  created_at : Nat
  deriving Repr, DecidableEq

/-- The tables the search query touches. -/
structure Db where
  chunks : List ChunkRow
  notes : List NoteRow
  deriving Repr, DecidableEq

/-- The extracted entities consumed by the pipeline (absent lists model the
falsy `entities.get(...) or []` defaults). -/
structure Entities where
  date_start : Option String
  date_end : Option String
  keywords : List String
  categories : List String
  audio_ids : List Nat
  actions : List String
  deriving Repr, DecidableEq

/-- Decimal digit value. -/
def digitToNat (c : Char) : Nat := c.toNat - '0'.toNat

/-- `_parse_date` on the `YYYY-MM-DD` shape: the date as the ordinal
`y * 10000 + m * 100 + d` (preserving calendar order), `None` on anything
unparsable. -/
def parseDate (s : String) : Option Nat :=
  match s.data with
  | [y1, y2, y3, y4, '-', m1, m2, '-', d1, d2] =>
    if y1.isDigit && y2.isDigit && y3.isDigit && y4.isDigit &&
        m1.isDigit && m2.isDigit && d1.isDigit && d2.isDigit then
      let y := ((digitToNat y1 * 10 + digitToNat y2) * 10 + digitToNat y3) * 10 + digitToNat y4
      let m := digitToNat m1 * 10 + digitToNat m2
      let d := digitToNat d1 * 10 + digitToNat d2
      if 1 ≤ m ∧ m ≤ 12 ∧ 1 ≤ d ∧ d ≤ 31 then some ((y * 100 + m) * 100 + d) else none
    else none
  | _ => none

/-- `_parse_date` including the falsy-value guard. -/
def parseDateOpt : Option String → Option Nat
  | none => none
  | some s => parseDate s

/-- Python `str.lower()` (ASCII). -/
def toLowerStr (s : String) : String := ⟨s.data.map Char.toLower⟩

/-- Contiguous-sublist test (SQL `LIKE pattern` with wildcards on both
ends). -/
def containsSub : List Char → List Char → Bool
  | [], pat => pat.isEmpty
  | c :: t, pat => pat.isPrefixOf (c :: t) || containsSub t pat

/-- A chunk row joined to its parent note (`JOIN notes ON
note_chunks.note_id = notes.id`; note ids are primary keys). -/
structure JoinedRow where
  chunk : ChunkRow
  note : NoteRow
  deriving Repr, DecidableEq

/-- The inner join of the search query. -/
def joinedRows (db : Db) : List JoinedRow :=
  db.chunks.filterMap fun c =>
    (db.notes.find? fun n => n.id == c.note_id).map fun n => ⟨c, n⟩

/-- The WHERE clauses of `semantic_search_with_filters`: owner, not
archived, optional creation-date bounds, category whitelist, linked-audio
whitelist, and the case-insensitive joined-keyword substring filter. -/
def passesFilters (uid : Nat) (e : Entities) (r : JoinedRow) : Bool :=
  (r.note.user_id == uid) && (r.note.is_archived == false) &&
    (match parseDateOpt e.date_start with
     | some d => decide (d ≤ r.note.created_at)
     | none => true) &&
    (match parseDateOpt e.date_end with
     | some d => decide (r.note.created_at ≤ d)
     | none => true) &&
    (e.categories.isEmpty || e.categories.contains r.note.category) &&
    (e.audio_ids.isEmpty ||
      match r.note.audio_file_id with
      | some a => e.audio_ids.contains a
      | none => false) &&
    (e.keywords.isEmpty ||
      containsSub (toLowerStr r.chunk.chunk_text).data
        (toLowerStr (String.intercalate " " e.keywords)).data)

/-- Insertion into a distance-sorted list (deterministic model of the SQL
ORDER BY; ties keep earlier rows first). -/
def insertByDist (key : JoinedRow → ℚ) (x : JoinedRow) : List JoinedRow → List JoinedRow
  | [] => [x]
  | y :: ys => if key x < key y then x :: y :: ys else y :: insertByDist key x ys

/-- Sort by ascending distance key. -/
def sortByDist (key : JoinedRow → ℚ) : List JoinedRow → List JoinedRow
  | [] => []
  | x :: xs => insertByDist key x (sortByDist key xs)

/-- `semantic_search_with_filters(db, user_id, query, entities, limit)`:
embed the query (`None` or an empty vector returns no results), filter,
order by ascending cosine distance to the query vector, cap at `limit`,
and return the chunk rows. -/
def semanticSearchWithFilters (P : Provider) (dist : Vec → Vec → ℚ) (db : Db)
    (uid : Nat) (query : String) (e : Entities) (lim : Nat := 5) : List ChunkRow :=
  match generateEmbedding P query "RETRIEVAL_QUERY" with
  | none => []
  | some qv =>
    if qv.isEmpty then []
    else
      (((sortByDist (fun r => dist r.chunk.embedding qv)
          ((joinedRows db).filter (passesFilters uid e))).take lim).map (·.chunk))

/-- Membership is preserved by sorted insertion. -/
theorem mem_insertByDist (key : JoinedRow → ℚ) (x z : JoinedRow) :
    ∀ l, z ∈ insertByDist key x l ↔ z = x ∨ z ∈ l := by
  intro l
  induction l with
  | nil => simp [insertByDist]
  | cons y ys ih =>
    simp only [insertByDist]
    split
    · simp
    · simp only [List.mem_cons, ih]
      tauto

/-- Sorting permutes membership. -/
theorem mem_sortByDist (key : JoinedRow → ℚ) (z : JoinedRow) :
    ∀ l, z ∈ sortByDist key l ↔ z ∈ l := by
  intro l
  induction l with
  | nil => simp [sortByDist]
  | cons y ys ih => simp [sortByDist, mem_insertByDist, ih]

/-- Sorted insertion preserves ascending-key ordering. -/
theorem pairwise_insertByDist (key : JoinedRow → ℚ) (x : JoinedRow) :
    ∀ l, l.Pairwise (fun a b => key a ≤ key b) →
      (insertByDist key x l).Pairwise (fun a b => key a ≤ key b) := by
  intro l
  induction l with
  | nil => intro _; simp [insertByDist]
  | cons y ys ih =>
    intro h
    rcases List.pairwise_cons.mp h with ⟨hy, hys⟩
    simp only [insertByDist]
    split
    · rename_i hlt
      refine List.pairwise_cons.mpr ⟨?_, h⟩
      intro z hz
      rcases List.mem_cons.mp hz with rfl | hz
      · exact le_of_lt hlt
      · exact le_trans (le_of_lt hlt) (hy z hz)
    · rename_i hnlt
      refine List.pairwise_cons.mpr ⟨?_, ih hys⟩
      intro z hz
      rcases (mem_insertByDist key x z ys).mp hz with rfl | hz
      · exact le_of_not_lt hnlt
      · exact hy z hz

/-- The insertion sort produces an ascending-key list. -/
theorem pairwise_sortByDist (key : JoinedRow → ℚ) :
    ∀ l, (sortByDist key l).Pairwise (fun a b => key a ≤ key b) := by
  intro l
  induction l with
  | nil => simp [sortByDist]
  | cons y ys ih => exact pairwise_insertByDist key y _ ih

/-- C2 (amended): the vector search returns at most `limit` chunk rows (no
similarity scores attached), each from a joined row satisfying every entity
filter, ordered by ascending database distance to the query embedding —
equivalently by non-increasing similarity `1 − cosine_distance`. It applies
no similarity threshold and no per-parent grouping. -/
theorem c2_search_shape (P : Provider) (dist : Vec → Vec → ℚ) (db : Db)
    (uid : Nat) (query : String) (e : Entities) (lim : Nat) :
    (semanticSearchWithFilters P dist db uid query e lim).length ≤ lim ∧
      (∀ c ∈ semanticSearchWithFilters P dist db uid query e lim,
        ∃ r : JoinedRow, r ∈ joinedRows db ∧ passesFilters uid e r = true ∧ r.chunk = c) ∧
      (∀ qv, generateEmbedding P query "RETRIEVAL_QUERY" = some qv →
        (semanticSearchWithFilters P dist db uid query e lim).Pairwise
          (fun c1 c2 => 1 - dist c2.embedding qv ≤ 1 - dist c1.embedding qv)) := by
  refine ⟨?_, ?_, ?_⟩
  · unfold semanticSearchWithFilters
    split
    · simp
    · split
      · simp
      · simp [List.length_take_le]
  · intro c hc
    unfold semanticSearchWithFilters at hc
    split at hc
    · simp at hc
    · split at hc
      · simp at hc
      · rcases List.mem_map.mp hc with ⟨r, hr, rfl⟩
        have hr2 := List.take_subset _ _ hr
        have hr3 := (mem_sortByDist _ r _).mp hr2
        rcases List.mem_filter.mp hr3 with ⟨hmem, hpass⟩
        exact ⟨r, hmem, hpass, rfl⟩
  · intro qv hqv
    unfold semanticSearchWithFilters
    rw [hqv]
    split
    · simp
    · rename_i qv2 heq
      injection heq with heq2
      subst heq2
      split
      · simp
      · rw [List.pairwise_map]
        refine List.Pairwise.imp ?_
          ((pairwise_sortByDist (fun r => dist r.chunk.embedding qv) _).sublist
            (List.take_sublist _ _))
        intro a b hab
        exact sub_le_sub_left hab 1

/-- A provider that embeds any query as the vector `[1]`. -/
def oneVecProvider : Provider := ⟨fun _ _ => some [1], fun _ _ => none⟩

/-- A database distance operator reading the first vector component. -/
def headDist : Vec → Vec → ℚ := fun a _ => a.headD 0

/-- A one-note database carrying two chunks of that note. -/
def twoChunkDb : Db :=
  ⟨[⟨1, 1, "t1", "content", [0]⟩, ⟨2, 1, "t2", "content", [1]⟩],
   [⟨1, 7, false, "general", none, 20240101⟩]⟩

/-- No extracted entities. -/
def noEntities : Entities := ⟨none, none, [], [], [], []⟩

/-- C2 (counterexample): the claim says results are grouped by parent
entity keeping only the maximum similarity per parent (and filtered by a
similarity threshold); the code has no threshold parameter and no grouping:
on a database where one note owns two chunks, both chunks are returned. -/
theorem c2_parent_grouping_counterexample :
    (semanticSearchWithFilters oneVecProvider headDist twoChunkDb 7 "q" noEntities 5).map
        (·.note_id) = [1, 1] := by
  decide

/-- C2 witness: the shape law evaluated on the two-chunk database. -/
theorem c2_search_shape_witness :
    (semanticSearchWithFilters oneVecProvider headDist twoChunkDb 7 "q" noEntities 5).length ≤ 5 ∧
      (semanticSearchWithFilters oneVecProvider headDist twoChunkDb 7 "q" noEntities 5).Pairwise
        (fun c1 c2 => 1 - headDist c2.embedding [1] ≤ 1 - headDist c1.embedding [1]) :=
  ⟨(c2_search_shape oneVecProvider headDist twoChunkDb 7 "q" noEntities 5).1,
    (c2_search_shape oneVecProvider headDist twoChunkDb 7 "q" noEntities 5).2.2 [1] rfl⟩

/-! ## ConversationOrchestrator: `process_message` (chatbot_service.py)

A turn is a pure state transformation. Failure points of the Python code
are oracle fields: `classifierOk = false` models the `AttributeError` when
the classifier returned a truthy non-dict; `retrieval = none` models the
search raising; `commitOk = false` models `db.commit()` raising; the
generative call returning `none` models the caught generation exception
(replaced by the fallback text, never aborting). `intentRaw`, `confidence`
and `entities` are the already-guarded values of chatbot_service.py lines
44-54. The `except Exception: db.rollback(); raise` wrapper is the aborted
outcome returning the unchanged state. -/

/-- A `ChatbotSession` row. -/
structure SessionRow where
  session_id : String
  user_id : Nat
  title : Option String
  total_messages : Option Int
  is_active : Bool
  deriving Repr, DecidableEq

/-- A `ChatbotMessage` row. -/
structure MessageRow where
  message_id : String
  session_id : String
  role : String
  content : String
  intent : Option String
  entities : Option Entities
  retrieved_chunks : Option (List Nat)
  retrieved_audio_ids : Option (List Nat)
  retrieved_note_ids : Option (List Nat)
  response_time_ms : Option Int
  confidence_score : Option ℚ
  deriving Repr, DecidableEq

/-- The chatbot tables. -/
structure ChatState where
  sessions : List SessionRow
  messages : List MessageRow
  deriving Repr, DecidableEq

/-- External effects and pre-guarded classifier values of one turn. -/
structure TurnOracle where
  intentRaw : String
  classifierOk : Bool
  confidence : ℚ
  entities : Entities
  retrieval : Option (List RChunk)
  gen : String → String → Option String
  elapsedMs : Int
  userMsgId : String
  asstMsgId : String
  commitOk : Bool

/-- A handler's result dict (`audioRefs`/`noteRefs` are `none` when the
handler did not set the corresponding key). -/
structure HandlerResult where
  text : String
  audioRefs : Option (List AudioRow)
  noteRefs : Option (List RNote)
  suggested : List String

/-- The response payload of `process_message`. -/
structure RespPayload where
  message_id : String
  response : String
  intent : String
  audio_references : List AudioRow
  note_references : List RNote
  suggested_questions : List String

/-- The outcome of one turn: the database state, the returned payload
(`none` = turn aborted and re-raised), and the number of generative-text
API calls made. -/
structure TurnOutcome where
  state : ChatState
  result : Option RespPayload
  genCalls : Nat

/-- `_generate_response`: one generative call, any exception replaced by
the fallback text. -/
def genResponse (o : TurnOracle) (sys usr fallback : String) : String :=
  match o.gen sys usr with
  | some t => t
  | none => fallback

/-- The "not found" search response. -/
def searchNotFoundText : String := "Mình chưa tìm thấy bản ghi âm phù hợp với yêu cầu của bạn."

/-- The clarifying prompt of `_handle_summarization` without context. -/
def summarizeClarifyText : String :=
  "Mình chưa tìm thấy dữ liệu liên quan để tóm tắt. Bạn có thể nói rõ hơn không?"

/-- The clarifying prompt of `_handle_question` without context. -/
def questionClarifyText : String :=
  "Mình không tìm thấy thông tin trong dữ liệu của bạn. Bạn có thể nói rõ hơn không?"

/-- The clarifying prompt of `_handle_analytics` without context. -/
def analyticsClarifyText : String :=
  "Mình cần thêm dữ liệu để tạo thống kê. Bạn có thể chỉ rõ phạm vi thời gian không?"

/-- `_handle_search`: no generative call; wording branches on 0/1/N matched
audio files; always sets both reference lists. -/
def handleSearch (audioFiles : List AudioRow) (notes : List RNote) : HandlerResult × Nat :=
  let t :=
    if audioFiles.length = 0 then searchNotFoundText
    else if audioFiles.length = 1 then
      "Mình tìm thấy 1 bản ghi âm: " ++ (audioFiles.headD ⟨0, "", 0, none⟩).original_filename
    else "Mình tìm thấy " ++ toString audioFiles.length ++ " bản ghi âm phù hợp."
  (⟨t, some audioFiles, some notes,
    ["Bạn có muốn tóm tắt các bản ghi này không?", "Cho mình xem bản gần nhất."]⟩, 0)

/-- `_handle_summarization`. -/
def handleSummarization (o : TurnOracle) (context question : String) : HandlerResult × Nat :=
  if context = "" then
    (⟨summarizeClarifyText, none, none,
      ["Tóm tắt cuộc họp hôm qua", "Tóm tắt bản ghi âm gần nhất"]⟩, 0)
  else
    let t := genResponse o
      "Bạn là trợ lý cho ứng dụng ghi âm. Hãy tóm tắt ngắn gọn, rõ ràng bằng tiếng Việt dựa trên ngữ cảnh được cung cấp. Nêu ý chính, quyết định và action items nếu có."
      ("Ngữ cảnh từ bản ghi:\n" ++ context ++ "\n\nYêu cầu của người dùng: " ++ question ++ "\n\nHãy tóm tắt đầy đủ.")
      "Mình gặp lỗi khi tạo tóm tắt. Bạn vui lòng thử lại nhé."
    (⟨t, none, none,
      ["Bạn có thể liệt kê action items không?", "Những quyết định quan trọng là gì?"]⟩, 1)

/-- `_handle_question`. -/
def handleQuestion (o : TurnOracle) (context question : String) : HandlerResult × Nat :=
  if context = "" then
    (⟨questionClarifyText, none, none,
      ["Tìm bản ghi âm về ngân sách", "Bạn có bản ghi nào về cuộc họp gần đây không?"]⟩, 0)
  else
    let t := genResponse o
      "Bạn là trợ lý cho ứng dụng ghi âm. Chỉ trả lời dựa trên ngữ cảnh được cung cấp. Nếu không có thông tin, hãy nói rõ. Trả lời bằng tiếng Việt."
      ("Ngữ cảnh từ bản ghi:\n" ++ context ++ "\n\nCâu hỏi: " ++ question ++ "\n\nTrả lời ngắn gọn và chính xác.")
      "Mình gặp lỗi khi trả lời. Bạn thử hỏi lại theo cách khác nhé."
    (⟨t, none, none,
      ["Có bản ghi nào liên quan khác không?", "Bạn có thể trích dẫn thêm chi tiết không?"]⟩, 1)

/-- `_handle_management`: rule-based on extracted actions; no generative
call. -/
def handleManagement (e : Entities) : HandlerResult × Nat :=
  let t :=
    if e.actions.contains "delete" then
      "Mình có thể hỗ trợ xóa bản ghi âm. Bạn xác nhận muốn xóa bản nào?"
    else if e.actions.contains "archive" then
      "Mình có thể lưu trữ bản ghi âm. Bạn muốn lưu trữ bản nào?"
    else "Bạn muốn mình giúp quản lý bản ghi âm như thế nào?"
  (⟨t, none, none,
    ["Xóa các bản ghi âm cũ hơn 30 ngày", "Lưu trữ các bản ghi cuộc họp tháng trước"]⟩, 0)

/-- `_handle_analytics`. -/
def handleAnalytics (o : TurnOracle) (context question : String) : HandlerResult × Nat :=
  if context = "" then
    (⟨analyticsClarifyText, none, none,
      ["Thống kê số cuộc họp trong tháng này", "Chủ đề phổ biến trong tuần này"]⟩, 0)
  else
    let t := genResponse o
      "Bạn là trợ lý phân tích cho ứng dụng ghi âm. Từ ngữ cảnh, hãy đưa ra thống kê hoặc insight bằng tiếng Việt."
      ("Ngữ cảnh:\n" ++ context ++ "\n\nYêu cầu: " ++ question ++ "\n\nHãy trả lời ngắn gọn, dễ hiểu.")
      "Mình chưa thể tạo thống kê lúc này. Bạn thử lại sau nhé."
    (⟨t, none, none,
      ["Có xu hướng nào nổi bật không?", "So sánh với tháng trước giúp mình"]⟩, 1)

/-- `_handle_chat`: always one generative call. -/
def handleChat (o : TurnOracle) (message : String) : HandlerResult × Nat :=
  let t := genResponse o
    "Bạn là trợ lý thân thiện cho ứng dụng ghi âm và ghi chú. Trả lời bằng tiếng Việt và hướng người dùng tới các tính năng hữu ích."
    message
    "Mình ở đây để giúp bạn tìm và tóm tắt các bản ghi âm. Bạn muốn bắt đầu với yêu cầu nào?"
  (⟨t, none, none,
    ["Tìm các cuộc họp gần đây", "Tóm tắt bản ghi hôm nay",
      "Tôi đã nói về những chủ đề gì tuần này?"]⟩, 1)

/-- The intents that trigger retrieval (chatbot_service.py line 61). -/
def retrievalIntents : List String := ["search", "summarize", "question", "analytics"]

/-- `_get_session`: owned, active session lookup. -/
def findSession (st : ChatState) (uid : Nat) (sid : String) : Option SessionRow :=
  st.sessions.find? fun s => s.session_id == sid && s.user_id == uid && s.is_active

/-- Python truthiness of `session.title` (`if not session.title`). -/
def titleFalsy : Option String → Bool
  | none => true
  | some t => t == ""

/-- `message.strip()[:200]`. -/
def truncate200 (s : String) : String := ⟨s.data.take 200⟩

/-- The retrieval result the orchestrator works with (empty outside
retrieval-backed intents). -/
def chunksOf (o : TurnOracle) : List RChunk :=
  if retrievalIntents.contains (normalizeIntent o.intentRaw) = true then o.retrieval.getD []
  else []

/-- `process_message(user_id, session_id, message)` as one state
transformation (see the section comment for the oracle encoding of the
failure points). -/
def processMessage (o : TurnOracle) (st : ChatState) (uid : Nat) (sid : String)
    (msg : String) : TurnOutcome :=
  match findSession st uid sid with
  | none => ⟨st, none, 0⟩
  | some sess =>
    if o.classifierOk = false then ⟨st, none, 0⟩
    else
      let intent := normalizeIntent o.intentRaw
      if retrievalIntents.contains intent = true ∧ o.retrieval = none then ⟨st, none, 0⟩
      else
        let chunks := if retrievalIntents.contains intent = true then o.retrieval.getD [] else []
        let audioFiles := getRelatedAudioFiles chunks
        let notes := getRelatedNotes chunks
        let context := buildContext chunks 3000
        let hr :=
          if intent = "search" then handleSearch audioFiles notes
          else if intent = "summarize" then handleSummarization o context msg
          else if intent = "question" then handleQuestion o context msg
          else if intent = "manage" then handleManagement o.entities
          else if intent = "analytics" then handleAnalytics o context msg
          else handleChat o msg
        let audioRefs := hr.1.audioRefs.getD audioFiles
        let noteRefs := hr.1.noteRefs.getD notes
        let userMsg : MessageRow :=
          { message_id := o.userMsgId, session_id := sid, role := "user", content := msg,
            intent := some intent, entities := some o.entities, retrieved_chunks := none,
            retrieved_audio_ids := none, retrieved_note_ids := none,
            response_time_ms := none, confidence_score := none }
        let asstMsg : MessageRow :=
          { message_id := o.asstMsgId, session_id := sid, role := "assistant",
            content := hr.1.text, intent := some intent, entities := none,
            retrieved_chunks := if chunks.isEmpty then none else some (chunks.map (·.id)),
            retrieved_audio_ids :=
              if audioFiles.isEmpty then none else some (audioFiles.map (·.id)),
            retrieved_note_ids := if notes.isEmpty then none else some (notes.map (·.id)),
            response_time_ms := some o.elapsedMs, confidence_score := some o.confidence }
        let newSess : SessionRow :=
          { sess with
            title := if titleFalsy sess.title then some (truncate200 (pyStrip msg))
              else sess.title,
            total_messages := some (sess.total_messages.getD 0 + 2) }
        if o.commitOk then
          ⟨⟨st.sessions.map fun s => if s.session_id == sess.session_id then newSess else s,
              st.messages ++ [userMsg, asstMsg]⟩,
            some ⟨o.asstMsgId, hr.1.text, intent, audioRefs, noteRefs, hr.1.suggested⟩,
            hr.2⟩
        else ⟨st, none, hr.2⟩

/-- The user message `process_message` persists on success. -/
def userMsgSpec (o : TurnOracle) (sid msg : String) : MessageRow :=
  ⟨o.userMsgId, sid, "user", msg, some (normalizeIntent o.intentRaw), some o.entities,
    none, none, none, none, none⟩

/-- The assistant message `process_message` persists on success: it records
the retrieved chunk ids, the related audio/note (parent) ids, the elapsed
milliseconds, and the intent step's confidence. -/
def asstMsgSpec (o : TurnOracle) (sid content : String) : MessageRow :=
  ⟨o.asstMsgId, sid, "assistant", content, some (normalizeIntent o.intentRaw), none,
    (if (chunksOf o).isEmpty then none else some ((chunksOf o).map (·.id))),
    (if (getRelatedAudioFiles (chunksOf o)).isEmpty then none
     else some ((getRelatedAudioFiles (chunksOf o)).map (·.id))),
    (if (getRelatedNotes (chunksOf o)).isEmpty then none
     else some ((getRelatedNotes (chunksOf o)).map (·.id))),
    some o.elapsedMs, some o.confidence⟩

/-- The session update `process_message` commits on success: title set from
the (stripped, 200-char-truncated) user message when unset, and
`total_messages` increased by exactly 2. -/
def updatedSession (sess : SessionRow) (msg : String) : SessionRow :=
  ⟨sess.session_id, sess.user_id,
    (if titleFalsy sess.title then some (truncate200 (pyStrip msg)) else sess.title),
    some (sess.total_messages.getD 0 + 2), sess.is_active⟩

/-- C1: a turn is atomic — an aborted turn (missing session, classifier
shape failure, retrieval failure, commit failure) leaves the state exactly
unchanged, and a successful turn appends exactly one user and one assistant
message (the assistant message recording retrieved chunk/parent ids,
elapsed milliseconds and the intent confidence) and updates the session
title (from the first user message, truncated, if unset) and
`total_messages` by exactly 2, all in the same transition. -/
theorem c1_atomic_turn (o : TurnOracle) (st : ChatState) (uid : Nat) (sid msg : String) :
    ((processMessage o st uid sid msg).result = none →
      (processMessage o st uid sid msg).state = st) ∧
    (∀ r, (processMessage o st uid sid msg).result = some r →
      ∃ sess, findSession st uid sid = some sess ∧
        (processMessage o st uid sid msg).state.messages =
          st.messages ++ [userMsgSpec o sid msg, asstMsgSpec o sid r.response] ∧
        (processMessage o st uid sid msg).state.sessions =
          st.sessions.map fun s =>
            if s.session_id == sess.session_id then updatedSession sess msg else s) := by
  constructor
  · intro h
    simp only [processMessage] at h ⊢
    cases hs : findSession st uid sid with
    | none => rfl
    | some sess =>
      rw [hs] at h
      dsimp only at h ⊢
      by_cases h1 : o.classifierOk = false
      · rw [if_pos h1]
      · rw [if_neg h1] at h ⊢
        by_cases h2 : retrievalIntents.contains (normalizeIntent o.intentRaw) = true ∧
            o.retrieval = none
        · rw [if_pos h2]
        · rw [if_neg h2] at h ⊢
          by_cases h3 : o.commitOk = true
          · rw [if_pos h3] at h
            simp at h
          · rw [if_neg h3]
  · intro r hr
    simp only [processMessage] at hr ⊢
    cases hs : findSession st uid sid with
    | none => rw [hs] at hr; simp at hr
    | some sess =>
      rw [hs] at hr
      dsimp only at hr ⊢
      by_cases h1 : o.classifierOk = false
      · rw [if_pos h1] at hr; simp at hr
      · rw [if_neg h1] at hr ⊢
        by_cases h2 : retrievalIntents.contains (normalizeIntent o.intentRaw) = true ∧
            o.retrieval = none
        · rw [if_pos h2] at hr; simp at hr
        · rw [if_neg h2] at hr ⊢
          by_cases h3 : o.commitOk = true
          · rw [if_pos h3] at hr ⊢
            simp only [Option.some.injEq] at hr
            subst hr
            exact ⟨sess, rfl, rfl, rfl⟩
          · rw [if_neg h3] at hr; simp at hr

/-- A one-session state for witnesses. -/
def demoState : ChatState := ⟨[⟨"s1", 7, none, none, true⟩], []⟩

/-- A chat-intent oracle whose generation call fails (fallback text used)
and whose commit succeeds. -/
def demoChatOracle : TurnOracle :=
  ⟨"chat", true, 1 / 2, noEntities, none, fun _ _ => none, 42, "u1", "a1", true⟩

/-- C1 witness: the success shape evaluated on a concrete chat turn. -/
theorem c1_atomic_turn_witness :
    ∃ sess, findSession demoState 7 "s1" = some sess ∧
      (processMessage demoChatOracle demoState 7 "s1" "hello").state.messages =
        demoState.messages ++
          [userMsgSpec demoChatOracle "s1" "hello",
            asstMsgSpec demoChatOracle "s1"
              "Mình ở đây để giúp bạn tìm và tóm tắt các bản ghi âm. Bạn muốn bắt đầu với yêu cầu nào?"] ∧
      (processMessage demoChatOracle demoState 7 "s1" "hello").state.sessions =
        demoState.sessions.map fun s =>
          if s.session_id == sess.session_id then updatedSession sess "hello" else s :=
  (c1_atomic_turn demoChatOracle demoState 7 "s1" "hello").2
    ⟨"a1",
      "Mình ở đây để giúp bạn tìm và tóm tắt các bản ghi âm. Bạn muốn bắt đầu với yêu cầu nào?",
      "chat", [], [],
      ["Tìm các cuộc họp gần đây", "Tóm tắt bản ghi hôm nay",
        "Tôi đã nói về những chủ đề gì tuần này?"]⟩ rfl

/-- C6: whenever retrieval returns zero chunks and the (normalized) intent
is retrieval-backed, no generative-text call is made; a "search" turn then
responds with the "not found" text and empty audio/note reference lists,
and summarize/question/analytics turns respond with their clarifying
prompts. -/
theorem c6_no_generation_without_context (o : TurnOracle) (st : ChatState) (uid : Nat)
    (sid msg : String) (hzero : o.retrieval = some [])
    (hi : retrievalIntents.contains (normalizeIntent o.intentRaw) = true) :
    (processMessage o st uid sid msg).genCalls = 0 ∧
      ∀ r, (processMessage o st uid sid msg).result = some r →
        (normalizeIntent o.intentRaw = "search" →
          r.response = searchNotFoundText ∧
            r.audio_references = [] ∧ r.note_references = []) ∧
        (normalizeIntent o.intentRaw = "summarize" → r.response = summarizeClarifyText) ∧
        (normalizeIntent o.intentRaw = "question" → r.response = questionClarifyText) ∧
        (normalizeIntent o.intentRaw = "analytics" → r.response = analyticsClarifyText) := by
  have hmem : normalizeIntent o.intentRaw ∈ retrievalIntents := by simpa using hi
  have hi4 : normalizeIntent o.intentRaw = "search" ∨ normalizeIntent o.intentRaw = "summarize" ∨
      normalizeIntent o.intentRaw = "question" ∨ normalizeIntent o.intentRaw = "analytics" := by
    simpa [retrievalIntents] using hmem
  have h2 : ¬(retrievalIntents.contains (normalizeIntent o.intentRaw) = true ∧
      o.retrieval = none) := by simp [hzero]
  constructor
  · simp only [processMessage]
    cases hs : findSession st uid sid with
    | none => rfl
    | some sess =>
      dsimp only
      by_cases h1 : o.classifierOk = false
      · rw [if_pos h1]
      · rw [if_neg h1, if_neg h2]
        have hd :
            (if normalizeIntent o.intentRaw = "search" then
              handleSearch
                (getRelatedAudioFiles
                  (if retrievalIntents.contains (normalizeIntent o.intentRaw) = true then
                    o.retrieval.getD [] else []))
                (getRelatedNotes
                  (if retrievalIntents.contains (normalizeIntent o.intentRaw) = true then
                    o.retrieval.getD [] else []))
            else if normalizeIntent o.intentRaw = "summarize" then
              handleSummarization o
                (buildContext
                  (if retrievalIntents.contains (normalizeIntent o.intentRaw) = true then
                    o.retrieval.getD [] else []))
                msg
            else if normalizeIntent o.intentRaw = "question" then
              handleQuestion o
                (buildContext
                  (if retrievalIntents.contains (normalizeIntent o.intentRaw) = true then
                    o.retrieval.getD [] else []))
                msg
            else if normalizeIntent o.intentRaw = "manage" then handleManagement o.entities
            else if normalizeIntent o.intentRaw = "analytics" then
              handleAnalytics o
                (buildContext
                  (if retrievalIntents.contains (normalizeIntent o.intentRaw) = true then
                    o.retrieval.getD [] else []))
                msg
            else handleChat o msg).2 = 0 := by
          rcases hi4 with heq | heq | heq | heq <;>
            simp [heq, hi, hzero, handleSearch, handleSummarization, handleQuestion,
              handleAnalytics, getRelatedAudioFiles, getRelatedAudioFilesAux,
              getRelatedNotes, getRelatedNotesAux, buildContext, buildContextParts,
              joinNewline]
        by_cases h3 : o.commitOk = true
        · rw [if_pos h3]; exact hd
        · rw [if_neg h3]; exact hd
  · intro r hres
    simp only [processMessage] at hres
    cases hs : findSession st uid sid with
    | none => rw [hs] at hres; simp at hres
    | some sess =>
      rw [hs] at hres
      dsimp only at hres
      by_cases h1 : o.classifierOk = false
      · rw [if_pos h1] at hres; simp at hres
      · rw [if_neg h1, if_neg h2] at hres
        by_cases h3 : o.commitOk = true
        · rw [if_pos h3] at hres
          simp only [Option.some.injEq] at hres
          subst hres
          rcases hi4 with heq | heq | heq | heq <;>
            simp [heq, hi, hzero, handleSearch, handleSummarization, handleQuestion,
              handleAnalytics, getRelatedAudioFiles, getRelatedAudioFilesAux,
              getRelatedNotes, getRelatedNotesAux, buildContext, buildContextParts,
              joinNewline, searchNotFoundText]
        · rw [if_neg h3] at hres; simp at hres

/-- A search-intent oracle with zero retrieved chunks; its generative
oracle would be detectable if consulted. -/
def demoSearchOracle : TurnOracle :=
  ⟨"search", true, 9 / 10, noEntities, some [], fun _ _ => some "GENERATED", 5, "u1", "a1", true⟩

/-- C6 witness: zero generative calls and the "not found" search response
with empty reference lists, evaluated on a concrete turn. -/
theorem c6_no_generation_without_context_witness :
    (processMessage demoSearchOracle demoState 7 "s1" "find my recordings").genCalls = 0 ∧
      ((⟨"a1", searchNotFoundText, "search", [], [],
          ["Bạn có muốn tóm tắt các bản ghi này không?", "Cho mình xem bản gần nhất."]⟩ :
          RespPayload).response = searchNotFoundText ∧
        (⟨"a1", searchNotFoundText, "search", [], [],
          ["Bạn có muốn tóm tắt các bản ghi này không?", "Cho mình xem bản gần nhất."]⟩ :
          RespPayload).audio_references = [] ∧
        (⟨"a1", searchNotFoundText, "search", [], [],
          ["Bạn có muốn tóm tắt các bản ghi này không?", "Cho mình xem bản gần nhất."]⟩ :
          RespPayload).note_references = []) :=
  ⟨(c6_no_generation_without_context demoSearchOracle demoState 7 "s1"
      "find my recordings" rfl rfl).1,
    ((c6_no_generation_without_context demoSearchOracle demoState 7 "s1"
      "find my recordings" rfl rfl).2
      ⟨"a1", searchNotFoundText, "search", [], [],
        ["Bạn có muốn tóm tắt các bản ghi này không?", "Cho mình xem bản gần nhất."]⟩ rfl).1 rfl⟩

/-! ## NoteChunk persistence (note_service.py)

Both the note-creation and note-update write paths run the same loop:
`for chunk_data in chunks_with_embeddings: if chunk_data["embedding"]:
db.add(NoteChunk(...))`. The guard is Python truthiness, so a draft whose
embedding is `None` (and likewise a degenerate empty vector) is silently
dropped; the `embedding` column is declared `nullable=False`, reflected
here by the row field being a plain `Vec`. -/

/-- A stored `NoteChunk` row (the `embedding` column is non-nullable). -/
structure NoteChunkRow where
  note_id : Nat
  chunk_text : String
  chunk_index : Nat
  chunk_type : String
  embedding : Vec
  start_char : Int
  end_char : Int
  token_count : Nat
  deriving Repr, DecidableEq

/-- `generate_chunk_embeddings`: pair each draft with
`embeddings[i] if i < len(embeddings) else None`. -/
def attachEmb : List ChunkDraft → List (Option Vec) → List (ChunkDraft × Option Vec)
  | [], _ => []
  | c :: cs, [] => (c, none) :: attachEmb cs []
  | c :: cs, e :: es => (c, e) :: attachEmb cs es

/-- `generate_chunk_embeddings(chunks)`. -/
def generateChunkEmbeddings (P : Provider) (chunks : List ChunkDraft) :
    List (ChunkDraft × Option Vec) :=
  if chunks.isEmpty then []
  else
    attachEmb chunks
      (generateEmbeddingsBatch P (chunks.map (·.chunk_text)) "RETRIEVAL_DOCUMENT"
        EMBEDDING_BATCH_SIZE)

/-- The chunk write loop shared by `summarize_audio_transcript`,
`create_note` and `update_note`: insert a row only when the draft's
embedding is truthy. -/
def persistChunks (noteId : Nat) (cs : List (ChunkDraft × Option Vec)) : List NoteChunkRow :=
  cs.filterMap fun ec =>
    match ec.2 with
    | some v =>
      if v.isEmpty then none
      else some ⟨noteId, ec.1.chunk_text, ec.1.chunk_index, ec.1.chunk_type, v,
        ec.1.start_char, ec.1.end_char, ec.1.token_count⟩
    | none => none

/-- C10: every persisted `NoteChunk` row originates from a draft whose
embedding was non-null (drafts with failed embeddings are silently
dropped), and the stored embedding is that non-null vector. -/
theorem c10_persisted_chunks_embedded (noteId : Nat) (cs : List (ChunkDraft × Option Vec))
    (row : NoteChunkRow) (hrow : row ∈ persistChunks noteId cs) :
    ∃ ec ∈ cs, ec.2 = some row.embedding ∧ row.embedding ≠ [] ∧
      row.chunk_text = ec.1.chunk_text ∧ row.note_id = noteId := by
  rcases List.mem_filterMap.mp hrow with ⟨ec, hec, hf⟩
  refine ⟨ec, hec, ?_⟩
  rcases hv : ec.2 with _ | v
  · rw [hv] at hf; simp at hf
  · rw [hv] at hf
    dsimp only at hf
    by_cases he : v.isEmpty
    · rw [if_pos he] at hf; simp at hf
    · rw [if_neg he] at hf
      simp only [Option.some.injEq] at hf
      subst hf
      exact ⟨rfl, by simpa [List.isEmpty_iff] using he, rfl, rfl⟩

/-- C10 witness: the persistence law evaluated on one embedded and one
failed draft. -/
theorem c10_persisted_chunks_embedded_witness :
    ∃ ec ∈ [((⟨"t", 0, "content", 0, 1, 0⟩ : ChunkDraft), some [(1 : ℚ)]),
        ((⟨"u", 1, "content", 1, 2, 0⟩ : ChunkDraft), none)],
      ec.2 = some (⟨5, "t", 0, "content", [(1 : ℚ)], 0, 1, 0⟩ : NoteChunkRow).embedding ∧
        (⟨5, "t", 0, "content", [(1 : ℚ)], 0, 1, 0⟩ : NoteChunkRow).embedding ≠ [] ∧
        (⟨5, "t", 0, "content", [(1 : ℚ)], 0, 1, 0⟩ : NoteChunkRow).chunk_text =
          ec.1.chunk_text ∧
        (⟨5, "t", 0, "content", [(1 : ℚ)], 0, 1, 0⟩ : NoteChunkRow).note_id = 5 :=
  c10_persisted_chunks_embedded 5
    [((⟨"t", 0, "content", 0, 1, 0⟩ : ChunkDraft), some [(1 : ℚ)]),
      ((⟨"u", 1, "content", 1, 2, 0⟩ : ChunkDraft), none)]
    ⟨5, "t", 0, "content", [(1 : ℚ)], 0, 1, 0⟩ (by decide)

end Notetaking
